import Mathlib

/-!
Verification of the `wheregoes` redirect tracer.

The development embeds the Go sources of the repository
(`internal/services/tracker.service.go` with `Track`, `TrackChannel` and
`transformLocationUrl`, `internal/utils/url.utils.go` with `IsUrl`, the DTO
wire encodings of `internal/dto`) as Lean functions and proves the frozen
claims about them.

The fetcher collaborator is modelled as a finite list of results consumed in
call order; a run that would issue more fetches than the list provides is
`none` ("did not terminate against this environment"), mirroring how the
repository's own mock fetcher drives the loop.
-/

set_option maxHeartbeats 1000000

namespace Wheregoes

/-! ## Model of Go `net/url.Parse` (scheme and host fragment)

`transformLocationUrl` calls `net/url.Parse` and reads `Scheme` and `Host`.
The following functions model Go's `url.Parse` (go1.20 `net/url/url.go`)
restricted to computing `Scheme`, `Host`, and whether parsing errors: the CTL
byte check, `getScheme`, the query/fragment splits, the opaque shortcut, the
colon-in-first-segment check, `parseAuthority`/`parseHost` with userinfo,
port and host character validation, and the percent-escape validation that
`setPath`/`setFragment`/`unescape` perform. -/

/-- Go `stringContainsCTLByte`: a byte below 0x20 or equal to 0x7f. -/
def isCTLChar (c : Char) : Bool := c.toNat < 0x20 || c.toNat == 0x7f

/-- ASCII letter, as in Go `getScheme` / `shouldEscape`. -/
def goIsAlpha (c : Char) : Bool := ('a' ≤ c && c ≤ 'z') || ('A' ≤ c && c ≤ 'Z')

/-- ASCII digit. -/
def goIsDigit (c : Char) : Bool := '0' ≤ c && c ≤ '9'

/-- Hexadecimal digit, as in Go `ishex`. -/
def goIsHexDigit (c : Char) : Bool :=
  goIsDigit c || ('a' ≤ c && c ≤ 'f') || ('A' ≤ c && c ≤ 'F')

/-- Value of a hexadecimal digit, as in Go `unhex`. -/
def goUnhex (c : Char) : Nat :=
  if goIsDigit c then c.toNat - 48
  else if 'a' ≤ c && c ≤ 'f' then c.toNat - 87
  else if 'A' ≤ c && c ≤ 'F' then c.toNat - 55
  else 0

/-- Go `strings.Cut` on a separator character: the part before the first
occurrence, and `some` rest after it when the separator occurs. -/
def cutListAt (sep : Char) : List Char → List Char × Option (List Char)
  | [] => ([], none)
  | c :: cs =>
    if c == sep then ([], some cs)
    else
      let (more, post) := cutListAt sep cs
      (c :: more, post)

/-- Characters before the first occurrence of `sep`. -/
def takeUntilChar (sep : Char) (s : List Char) : List Char :=
  s.takeWhile (fun c => c != sep)

/-- Characters from the first occurrence of `sep` on (empty when absent). -/
def dropFromChar (sep : Char) (s : List Char) : List Char :=
  s.dropWhile (fun c => c != sep)

/-- Split at the last occurrence of `sep`: `some (before, after)`, or `none`
when `sep` does not occur (Go `strings.LastIndex`). -/
def splitAtLastChar (sep : Char) (s : List Char) : Option (List Char × List Char) :=
  match cutListAt sep s.reverse with
  | (_, none) => none
  | (revAfter, some revBefore) => some (revBefore.reverse, revAfter.reverse)

/-- Go `getScheme`: `none` is the "missing protocol scheme" error; otherwise
the scheme (possibly empty) and the remainder. `full` is the whole input,
returned untouched when no scheme is present. -/
def getSchemeLoop (full : List Char) (acc : List Char) : List Char → Option (List Char × List Char)
  | [] => some ([], full)
  | c :: cs =>
    if goIsAlpha c then getSchemeLoop full (acc ++ [c]) cs
    else if goIsDigit c || c == '+' || c == '-' || c == '.' then
      if acc.isEmpty then some ([], full) else getSchemeLoop full (acc ++ [c]) cs
    else if c == ':' then
      if acc.isEmpty then none else some (acc, cs)
    else some ([], full)

/-- Go `validOptionalPort`: empty, or a colon followed by digits only. -/
def validOptionalPort : List Char → Bool
  | [] => true
  | c :: rest => c == ':' && rest.all goIsDigit

/-- Characters Go's `shouldEscape` admits in a host beyond letters and
digits (the `encodeHost` sub-delimiters plus the unreserved marks).
Code 39 is the apostrophe and code 34 the double quote. -/
def hostAllowedExtra (c : Char) : Bool :=
  c == '!' || c == '$' || c == '&' || c.toNat == 39 || c == '(' || c == ')' ||
  c == '*' || c == '+' || c == ',' || c == ';' || c == '=' || c == ':' ||
  c == '[' || c == ']' || c == '<' || c == '>' || c.toNat == 34

/-- Go `shouldEscape c encodeHost` (identical for `encodeZone`). -/
def shouldEscapeHost (c : Char) : Bool :=
  !(goIsAlpha c || goIsDigit c || hostAllowedExtra c ||
    c == '-' || c == '_' || c == '.' || c == '~')

/-- Go `unescape` in `encodeHost` (`strict = true`) or `encodeZone`
(`strict = false`) mode: validates percent escapes (in host mode only
`%25` and escapes of bytes ≥ 0x80 are legal), rejects ASCII characters that
`shouldEscape` would escape, and returns the decoded characters. -/
def unescapeHostMode (strict : Bool) : List Char → Option (List Char)
  | [] => some []
  | c :: rest =>
    if c == '%' then
      match rest with
      | x :: y :: rest' =>
        if goIsHexDigit x && goIsHexDigit y then
          if strict && goUnhex x < 8 && !(x == '2' && y == '5') then none
          else
            match unescapeHostMode strict rest' with
            | none => none
            | some out => some (Char.ofNat (16 * goUnhex x + goUnhex y) :: out)
        else none
      | _ => none
    else if c == '+' then
      match unescapeHostMode strict rest with
      | none => none
      | some out => some (c :: out)
    else
      if c.toNat < 0x80 && shouldEscapeHost c then none
      else
        match unescapeHostMode strict rest with
        | none => none
        | some out => some (c :: out)

/-- Whether Go `unescape` would reject the string for a malformed percent
escape (`%` not followed by two hexadecimal digits); this is the only error
`unescape` can produce in path, fragment or userinfo mode. -/
def malformedPercent : List Char → Bool
  | [] => false
  | c :: rest =>
    if c == '%' then
      match rest with
      | x :: y :: rest' =>
        if goIsHexDigit x && goIsHexDigit y then malformedPercent rest' else true
      | _ => true
    else malformedPercent rest

/-- First occurrence of the substring `%25` (Go `strings.Index(host, "%25")`
in `parseHost`'s IPv6-zone handling): `some (before, from)` with the input
equal to `before ++ from` and `from` starting with `%25`. -/
def findZoneSplit : List Char → Option (List Char × List Char)
  | [] => none
  | c :: rest =>
    if c == '%' then
      match rest with
      | '2' :: '5' :: _ => some ([], c :: rest)
      | _ =>
        match findZoneSplit rest with
        | none => none
        | some (h1, h2) => some (c :: h1, h2)
    else
      match findZoneSplit rest with
      | none => none
      | some (h1, h2) => some (c :: h1, h2)

/-- Go `parseHost`: bracketed IPv6 (with optional zone) or plain host, port
validation, then `unescape` in host mode. -/
def parseHost (host : List Char) : Option (List Char) :=
  match host with
  | '[' :: _ =>
    match splitAtLastChar ']' host with
    | none => none
    | some (before, after) =>
      if !validOptionalPort after then none
      else
        match findZoneSplit before with
        | some (h1, h2) =>
          match unescapeHostMode true h1, unescapeHostMode false h2,
                unescapeHostMode true (']' :: after) with
          | some a, some b, some c => some (a ++ b ++ c)
          | _, _, _ => none
        | none => unescapeHostMode true host
  | _ =>
    match splitAtLastChar ':' host with
    | none => unescapeHostMode true host
    | some (_, after) =>
      if validOptionalPort (':' :: after) then unescapeHostMode true host else none

/-- Characters Go `validUserinfo` admits. -/
def validUserinfoChar (c : Char) : Bool :=
  goIsAlpha c || goIsDigit c ||
  c == '-' || c == '.' || c == '_' || c == ':' || c == '~' || c == '!' ||
  c == '$' || c == '&' || c.toNat == 39 || c == '(' || c == ')' || c == '*' ||
  c == '+' || c == ',' || c == ';' || c == '=' || c == '%' || c == '@'

/-- Go `validUserinfo`. -/
def validUserinfo (s : List Char) : Bool := s.all validUserinfoChar

/-- Go `parseAuthority`: split userinfo at the last `@`, parse the host,
validate the userinfo and its percent escapes. Only the host is kept. -/
def parseAuthority (authority : List Char) : Option (List Char) :=
  match splitAtLastChar '@' authority with
  | none => parseHost authority
  | some (userinfo, hostPart) =>
    match parseHost hostPart with
    | none => none
    | some h =>
      if !validUserinfo userinfo then none
      else if malformedPercent userinfo then none
      else some h

/-- The scheme and host components of a parsed Go URL; the only components
`transformLocationUrl` reads. -/
structure GoUrl where
  scheme : String
  host : String
  deriving DecidableEq

/-- Go `parse(rawURL, viaRequest := false)` restricted to scheme, host and
the error outcome (`none`). -/
def goParseMain (u : List Char) : Option GoUrl :=
  if u.any isCTLChar then none
  else if u == ['*'] then some ⟨"", ""⟩
  else
    match getSchemeLoop u [] u with
    | none => none
    | some (schemeChars, rest0) =>
      let scheme := String.mk (schemeChars.map Char.toLower)
      let rest := takeUntilChar '?' rest0
      if !(rest.head? == some '/') && scheme ≠ "" then
        -- opaque URL: Go returns immediately with an empty host
        some ⟨scheme, ""⟩
      else if !(rest.head? == some '/') && (takeUntilChar '/' rest).contains ':' then
        -- "first path segment in URL cannot contain colon"
        none
      else
        if (scheme ≠ "" || !(rest.take 3 == ['/', '/', '/'])) && rest.take 2 == ['/', '/'] then
          let afterSlashes := rest.drop 2
          let authority := takeUntilChar '/' afterSlashes
          let restPath := dropFromChar '/' afterSlashes
          match parseAuthority authority with
          | none => none
          | some h =>
            if malformedPercent restPath then none else some ⟨scheme, String.mk h⟩
        else
          if malformedPercent rest then none else some ⟨scheme, ""⟩

/-- Go `url.Parse`: split the fragment, parse the rest, validate the
fragment's percent escapes. `none` is the error outcome. -/
def goUrlParse (rawURL : String) : Option GoUrl :=
  match cutListAt '#' rawURL.toList with
  | (u, frag) =>
    match goParseMain u with
    | none => none
    | some url =>
      match frag with
      | none => some url
      | some f => if malformedPercent f then none else some url

/-! ## `internal/utils/url.utils.go` -/

/-- Whether `pat` is an initial segment of `s`. -/
def startsWithList : List Char → List Char → Bool
  | [], _ => true
  | _ :: _, [] => false
  | p :: ps, c :: cs => p == c && startsWithList ps cs

/-- `utils.IsUrl`: whether the string matches the anchored regular
expression for absolute http(s) URLs; equivalently, whether it starts with
the literal `http://` or `https://`. -/
def IsUrl (url : String) : Bool :=
  startsWithList "http://".toList url.toList ||
  startsWithList "https://".toList url.toList

/-! ## `internal/services/tracker.service.go`: the location resolver -/

/-- `defaultTrackerService.transformLocationUrl`: an absolute http(s)
location is returned unchanged; otherwise the previous URL is parsed and
`scheme://host` is concatenated with the location verbatim; a parse error
yields the empty string. -/
def transformLocationUrl (locationUrl previousUrl : String) : String :=
  if IsUrl locationUrl then locationUrl
  else
    match goUrlParse previousUrl with
    | none => ""
    | some u => u.scheme ++ "://" ++ u.host ++ locationUrl

/-! ## `internal/services/tracker.service.go`: data model and fetcher
environment -/

/-- `services.TrackCheckpoint`: one recorded hop. `latency` is the measured
`time.Duration` (an input of the environment in this model, since it comes
from the wall clock). -/
structure TrackCheckpoint where
  url : String
  status : Int
  latency : Int
  deriving DecidableEq

/-- `services.TrackResponse`. -/
structure TrackResponse where
  url : String
  checkpoints : List TrackCheckpoint
  deriving DecidableEq

/-- Errors a trace can surface: a fetcher error propagated verbatim, or the
circular-redirection error of the tracker. -/
inductive TrackError where
  | networkError (msg : String)
  | circularRedirection
  deriving DecidableEq

/-- One result of `FetcherClient.Fetch`: either a response (status code, the
`Location` header via `res.Headers.Get("Location")`, which is `""` when the
header is absent, and the measured latency) or an error. The fetcher
environment is the list of results, consumed in call order. -/
inductive FetchResult where
  | ok (status : Int) (location : String) (latency : Int)
  | err (msg : String)
  deriving DecidableEq

/-- The redirect test of the loop: `res.StatusCode >= 300 && res.StatusCode
< 400`. -/
def isRedirectStatus (st : Int) : Prop := 300 ≤ st ∧ st < 400

instance (st : Int) : Decidable (isRedirectStatus st) := by
  unfold isRedirectStatus; infer_instance

/-! ## `defaultTrackerService.Track` -/

/-- The loop of `defaultTrackerService.Track`, one iteration per fetcher
result. Mirroring Go: a fetch error returns `(TrackResponse{}, err)`
discarding the accumulated checkpoints; otherwise a checkpoint for the
current URL is appended; a non-redirect status breaks with `Url = url`; on a
redirect, `url` is reassigned to the resolved location and an empty
reassigned `url` breaks (so the returned `Url` is the reassigned value).
`none` means the loop would issue a fetch beyond the given environment. -/
def trackLoop : List FetchResult → String → List TrackCheckpoint →
    Option (TrackResponse × Option TrackError)
  | [], _, _ => none
  | .err e :: _, _, _ => some (⟨"", []⟩, some (.networkError e))
  | .ok st loc lat :: rest, url, checkpoints =>
    let checkpoints := checkpoints ++ [⟨url, st, lat⟩]
    if isRedirectStatus st then
      let url := transformLocationUrl loc url
      if url = "" then some (⟨url, checkpoints⟩, none)
      else trackLoop rest url checkpoints
    else some (⟨url, checkpoints⟩, none)

/-- `defaultTrackerService.Track` run against a fetcher environment. -/
def Track (fetches : List FetchResult) (url : String) :
    Option (TrackResponse × Option TrackError) :=
  trackLoop fetches url []

/-! ## `defaultTrackerService.TrackChannel` -/

/-- `services.TrackChannelResponse`: the struct sent on the channel, with
Go zero values for the fields not set at each send site. -/
structure TrackChannelResponse where
  checkpoint : Option TrackCheckpoint
  err : Option TrackError
  finished : Bool
  deriving DecidableEq

/-- The checkpoint message: `TrackChannelResponse{Checkpoint: &cp}`. -/
def checkpointEvent (cp : TrackCheckpoint) : TrackChannelResponse :=
  ⟨some cp, none, false⟩

/-- The error message: `TrackChannelResponse{Err: err}`. -/
def errorEvent (e : TrackError) : TrackChannelResponse := ⟨none, some e, false⟩

/-- The finish message: `TrackChannelResponse{Finished: true}`. -/
def finishedEvent : TrackChannelResponse := ⟨none, none, true⟩

/-- The goroutine loop of `defaultTrackerService.TrackChannel`, as the
finite sequence of messages sent on the channel before it is closed: on a
fetch error the error message alone ends the stream; otherwise the
checkpoint message is sent, then either the finish message (non-redirect
status, or empty reassigned `url`) ends the stream or the loop continues. -/
def trackChannelLoop : List FetchResult → String → Option (List TrackChannelResponse)
  | [], _ => none
  | .err e :: _, _ => some [errorEvent (.networkError e)]
  | .ok st loc lat :: rest, url =>
    let ev := checkpointEvent ⟨url, st, lat⟩
    if isRedirectStatus st then
      let url := transformLocationUrl loc url
      if url = "" then some [ev, finishedEvent]
      else
        match trackChannelLoop rest url with
        | none => none
        | some evs => some (ev :: evs)
    else some [ev, finishedEvent]

/-- `defaultTrackerService.TrackChannel` run against a fetcher environment:
the ordered list of messages received from the channel. -/
def TrackChannel (fetches : List FetchResult) (url : String) :
    Option (List TrackChannelResponse) :=
  trackChannelLoop fetches url

/-! ## The current tracker with cycle detection, modelled from the spec

The repository's tests (`TestTrackerService_Track_CircularRedirect`) and
callers (`internal/server/server.go`) reference
`services.ErrCircularRedirection` and the `internal/pkg/set` package, but no
tracker source under `src/` defines them: the current `Track` with a visited
set is code of the repository missing from `src/`. It is modelled here from
spec §4.3. -/

/-- Modelled from the spec: the current `defaultTrackerService.Track` with
cycle detection, which is missing from `src/` (only its tests, its callers
and the `set` package it uses are present). Spec §4.3: fetch (abort with
`NetworkError` on failure), append the checkpoint, abort with
`CircularRedirection` if `current` is already in `visited`, add `current` to
`visited`, stop successfully with `final_url := current` on a non-redirect
status or an unresolved (`""`) next hop, else continue at the resolved
hop. -/
def trackSpecLoop : List FetchResult → String → List String → List TrackCheckpoint →
    Option (TrackResponse × Option TrackError)
  | [], _, _, _ => none
  | .err e :: _, _, _, _ => some (⟨"", []⟩, some (.networkError e))
  | .ok st loc lat :: rest, current, visited, checkpoints =>
    let checkpoints := checkpoints ++ [⟨current, st, lat⟩]
    if current ∈ visited then some (⟨"", []⟩, some .circularRedirection)
    else
      let visited := visited ++ [current]
      if isRedirectStatus st then
        let next := transformLocationUrl loc current
        if next = "" then some (⟨current, checkpoints⟩, none)
        else trackSpecLoop rest next visited checkpoints
      else some (⟨current, checkpoints⟩, none)

/-- Modelled from the spec: `trace(url)` of spec §4.3 run against a fetcher
environment. -/
def TrackSpec (fetches : List FetchResult) (url : String) :
    Option (TrackResponse × Option TrackError) :=
  trackSpecLoop fetches url [] []

/-! ## `internal/dto/track.dto.go`: the finish event wire encoding -/

/-- The embedded `dto.trackResponse` struct: only the discriminator field
`__typename`. -/
structure trackResponseDto where
  typeName : String
  deriving DecidableEq

/-- `dto.trackFinishResponse`: it embeds `trackResponse` and declares no
field of its own. -/
structure trackFinishResponseDto where
  base : trackResponseDto
  deriving DecidableEq

/-- `dto.NewTrackFinishResponse()`: typename `"Finish"`. -/
def NewTrackFinishResponse : trackFinishResponseDto := ⟨⟨"Finish"⟩⟩

/-- Go `encoding/json` string escaping (the `appendString` rules with HTML
escaping as `json.Marshal` applies by default): quote, backslash, `<`, `>`,
`&`, the newline/carriage-return/tab shorthands, `\u00XX` for other control
bytes. Code 34 is the double quote and 92 the backslash. -/
def jsonEscapeChar (c : Char) : List Char :=
  if c.toNat == 34 then [Char.ofNat 92, Char.ofNat 34]
  else if c.toNat == 92 then [Char.ofNat 92, Char.ofNat 92]
  else if c == '<' then "\\u003c".toList
  else if c == '>' then "\\u003e".toList
  else if c == '&' then "\\u0026".toList
  else if c == '\n' then [Char.ofNat 92, 'n']
  else if c == '\r' then [Char.ofNat 92, 'r']
  else if c == '\t' then [Char.ofNat 92, 't']
  else if c.toNat < 0x20 then
    "\\u00".toList ++
      [(if c.toNat / 16 < 10 then Char.ofNat (48 + c.toNat / 16)
        else Char.ofNat (87 + c.toNat / 16)),
       (if c.toNat % 16 < 10 then Char.ofNat (48 + c.toNat % 16)
        else Char.ofNat (87 + c.toNat % 16))]
  else [c]

/-- A Go JSON string literal for `s`. -/
def jsonQuote (s : String) : String :=
  "\"" ++ String.mk (s.toList.flatMap jsonEscapeChar) ++ "\""

/-- `json.Marshal` applied to `dto.trackFinishResponse`: the promoted
`__typename` field of the embedded struct is the only field serialized. -/
def encodeTrackFinishResponse (r : trackFinishResponseDto) : String :=
  "\x7b\"__typename\":" ++ jsonQuote r.base.typeName ++ "\x7d"

/-! ## Hop sequences and chain predicates used by the claims -/

/-- The URL the loop would fetch after `url` given the fetch result at
`url` (the resolved location for a response; unused for an error). -/
def chainNext (url : String) : FetchResult → String
  | .ok _ loc _ => transformLocationUrl loc url
  | .err _ => ""

/-- The URL each fetch in the list targets, starting at `url`, while the
loop keeps continuing. -/
def chainUrls : String → List FetchResult → List String
  | _, [] => []
  | url, f :: rest => url :: chainUrls (chainNext url f) rest

/-- A redirect chain in the sense of claim C3: every result but the last is
a redirect response whose location resolves to a non-empty next hop, and
the last result is a non-redirect response. -/
def redirectChain : String → List FetchResult → Bool
  | _, [] => false
  | _, .err _ :: _ => false
  | url, .ok st loc _ :: rest =>
    match rest with
    | [] => !decide (isRedirectStatus st)
    | _ :: _ =>
      decide (isRedirectStatus st) && decide (transformLocationUrl loc url ≠ "") &&
      redirectChain (transformLocationUrl loc url) rest

/-- A run segment that keeps the loop going: every result is a redirect
response whose location resolves to a non-empty next hop. -/
def continueChain : String → List FetchResult → Bool
  | _, [] => true
  | _, .err _ :: _ => false
  | url, .ok st loc _ :: rest =>
    decide (isRedirectStatus st) && decide (transformLocationUrl loc url ≠ "") &&
    continueChain (transformLocationUrl loc url) rest

/-- A run of the spec tracker that reaches a duplicate URL: all results are
responses, the URLs before the last are each new when fetched, the loop
continues through them, and the last fetched URL was already visited. -/
def specDupChain : String → List String → List FetchResult → Bool
  | _, _, [] => false
  | _, _, .err _ :: _ => false
  | url, visited, .ok st loc _ :: rest =>
    match rest with
    | [] => decide (url ∈ visited)
    | _ :: _ =>
      !decide (url ∈ visited) && decide (isRedirectStatus st) &&
      decide (transformLocationUrl loc url ≠ "") &&
      specDupChain (transformLocationUrl loc url) (visited ++ [url]) rest

/-- The URLs of the successful fetches the spec tracker performs (the URLs
of its checkpoints), given the URLs already visited. -/
def specFetched : List FetchResult → String → List String → List String
  | [], _, _ => []
  | .err _ :: _, _, _ => []
  | .ok st loc _ :: rest, url, visited =>
    if url ∈ visited then [url]
    else if isRedirectStatus st then
      let next := transformLocationUrl loc url
      if next = "" then [url]
      else url :: specFetched rest next (visited ++ [url])
    else [url]

/-! ## Unfolding equations for the loops -/

/-- One step of `trackLoop` on a fetch response. -/
theorem trackLoop_ok_eq (st : Int) (loc : String) (lat : Int)
    (rest : List FetchResult) (url : String) (acc : List TrackCheckpoint) :
    trackLoop (.ok st loc lat :: rest) url acc =
      if isRedirectStatus st then
        if transformLocationUrl loc url = "" then
          some (⟨transformLocationUrl loc url, acc ++ [⟨url, st, lat⟩]⟩, none)
        else trackLoop rest (transformLocationUrl loc url) (acc ++ [⟨url, st, lat⟩])
      else some (⟨url, acc ++ [⟨url, st, lat⟩]⟩, none) := rfl

/-- One step of `trackChannelLoop` on a fetch response. -/
theorem trackChannelLoop_ok_eq (st : Int) (loc : String) (lat : Int)
    (rest : List FetchResult) (url : String) :
    trackChannelLoop (.ok st loc lat :: rest) url =
      if isRedirectStatus st then
        if transformLocationUrl loc url = "" then
          some [checkpointEvent ⟨url, st, lat⟩, finishedEvent]
        else
          match trackChannelLoop rest (transformLocationUrl loc url) with
          | none => none
          | some evs => some (checkpointEvent ⟨url, st, lat⟩ :: evs)
      else some [checkpointEvent ⟨url, st, lat⟩, finishedEvent] := rfl

/-- One step of `trackSpecLoop` on a fetch response. -/
theorem trackSpecLoop_ok_eq (st : Int) (loc : String) (lat : Int)
    (rest : List FetchResult) (current : String) (visited : List String)
    (acc : List TrackCheckpoint) :
    trackSpecLoop (.ok st loc lat :: rest) current visited acc =
      if current ∈ visited then some (⟨"", []⟩, some .circularRedirection)
      else if isRedirectStatus st then
        if transformLocationUrl loc current = "" then
          some (⟨current, acc ++ [⟨current, st, lat⟩]⟩, none)
        else
          trackSpecLoop rest (transformLocationUrl loc current)
            (visited ++ [current]) (acc ++ [⟨current, st, lat⟩])
      else some (⟨current, acc ++ [⟨current, st, lat⟩]⟩, none) := rfl

/-! ## Claim C5 -/

/-- C5: a fetched response whose status is outside `[300, 400)` ends the
trace successfully with the final URL equal to the URL just fetched, at any
point of the loop; a status inside `[300, 400)` (304 included) whose
location resolves to a non-empty next hop continues the loop at that hop. -/
theorem c5_terminal_status_redirect_continuation (st : Int) (loc : String)
    (lat : Int) (rest : List FetchResult) (url : String)
    (acc : List TrackCheckpoint) :
    (¬ isRedirectStatus st →
      trackLoop (.ok st loc lat :: rest) url acc =
        some (⟨url, acc ++ [⟨url, st, lat⟩]⟩, none))
    ∧ (isRedirectStatus st → transformLocationUrl loc url ≠ "" →
      trackLoop (.ok st loc lat :: rest) url acc =
        trackLoop rest (transformLocationUrl loc url) (acc ++ [⟨url, st, lat⟩])) := by
  constructor
  · intro h
    rw [trackLoop_ok_eq, if_neg h]
  · intro h1 h2
    rw [trackLoop_ok_eq, if_pos h1, if_neg h2]

/-- Witness for C5 at a 200 response and at a 302 response with a
resolvable location. -/
theorem c5_witness :
    trackLoop [FetchResult.ok 200 "" 7] "https://a/x" [] =
      some (⟨"https://a/x", [⟨"https://a/x", 200, 7⟩]⟩, none)
    ∧ trackLoop [FetchResult.ok 302 "https://a/y" 7, FetchResult.ok 200 "" 8]
        "https://a/x" [] =
      trackLoop [FetchResult.ok 200 "" 8] "https://a/y" [⟨"https://a/x", 302, 7⟩] := by
  constructor
  · have h := (c5_terminal_status_redirect_continuation 200 "" 7 [] "https://a/x" []).1
      (by decide)
    simpa using h
  · have h := (c5_terminal_status_redirect_continuation 302 "https://a/y" 7
      [FetchResult.ok 200 "" 8] "https://a/x" []).2 (by decide) (by decide)
    have he : transformLocationUrl "https://a/y" "https://a/x" = "https://a/y" := by decide
    rw [he] at h
    simpa using h

/-! ## Claim C10 -/

/-- Every error return of the loop carries the zero `TrackResponse`,
whatever was already accumulated. -/
theorem trackLoop_error_zero : ∀ (fetches : List FetchResult) (url : String)
    (acc : List TrackCheckpoint) (resp : TrackResponse) (e : TrackError),
    trackLoop fetches url acc = some (resp, some e) → resp = ⟨"", []⟩ := by
  intro fetches
  induction fetches with
  | nil => intro url acc resp e h; simp [trackLoop] at h
  | cons f rest ih =>
    intro url acc resp e h
    cases f with
    | err m =>
      simp [trackLoop] at h
      exact h.1.symm
    | ok st loc lat =>
      rw [trackLoop_ok_eq] at h
      split at h
      · split at h
        · simp at h
        · exact ih _ _ _ _ h
      · simp at h

/-- C10: whenever `Track` returns a non-nil error it returns the zero
`TrackResponse` (empty URL, empty checkpoint list), however many successful
fetches preceded the failure. -/
theorem c10_error_discards_checkpoints (fetches : List FetchResult)
    (url : String) (resp : TrackResponse) (e : TrackError)
    (h : Track fetches url = some (resp, some e)) : resp = ⟨"", []⟩ :=
  trackLoop_error_zero fetches url [] resp e h

/-- Witness for C10: a trace with one successful redirect before the
failing fetch still returns the zero response. -/
theorem c10_witness :
    Track [FetchResult.ok 302 "https://a/y" 5, FetchResult.err "boom"]
        "https://a/x" =
      some (⟨"", []⟩, some (.networkError "boom"))
    ∧ (⟨"", []⟩ : TrackResponse) = ⟨"", []⟩ :=
  ⟨by decide,
   c10_error_discards_checkpoints
     [FetchResult.ok 302 "https://a/y" 5, FetchResult.err "boom"]
     "https://a/x" ⟨"", []⟩ (.networkError "boom") (by decide)⟩

/-! ## Claim C7 -/

/-- C7 as stated is false: on an unresolved (empty) next hop the loop does
terminate successfully, but the Go code reassigns `url` before breaking, so
the returned final URL is `""`, not the URL of the hop just fetched (here
the sole checkpoint's URL `"bad\nurl"`). -/
theorem c7_counterexample :
    Track [FetchResult.ok 302 "/x" 0] "bad\nurl" =
      some (⟨"", [⟨"bad\nurl", 302, 0⟩]⟩, none)
    ∧ ("" : String) ≠ "bad\nurl" := by decide

/-- C7 amended: when a redirect's next hop resolves to the empty string the
trace terminates successfully with all checkpoints retained, and the
returned final URL is the empty string (the reassigned `url`), not the URL
of the hop just fetched. -/
theorem c7_empty_next_hop (st : Int) (loc : String) (lat : Int)
    (rest : List FetchResult) (url : String) (acc : List TrackCheckpoint)
    (h1 : isRedirectStatus st) (h2 : transformLocationUrl loc url = "") :
    trackLoop (.ok st loc lat :: rest) url acc =
      some (⟨"", acc ++ [⟨url, st, lat⟩]⟩, none) := by
  rw [trackLoop_ok_eq, if_pos h1, if_pos h2, h2]

/-- Witness for C7's amended statement at a concrete unparsable previous
URL. -/
theorem c7_witness :
    trackLoop [FetchResult.ok 302 "/x" 0] "bad\nurl" [] =
      some (⟨"", [⟨"bad\nurl", 302, 0⟩]⟩, none) := by
  have h := c7_empty_next_hop 302 "/x" 0 [] "bad\nurl" [] (by decide) (by decide)
  simpa using h

/-! ## Claim C6 -/

/-- C6 as stated is false: for the empty location value and a parseable
previous URL the resolver returns `scheme://host`, which is not the empty
string. -/
theorem c6_counterexample :
    transformLocationUrl "" "https://example.com" = "https://example.com"
    ∧ transformLocationUrl "" "https://example.com" ≠ "" := by decide

/-- C6 amended: the resolver returns the empty string exactly when the
location is not an absolute http(s) URL and the previous URL fails to
parse — independently of whether the location value is empty. -/
theorem c6_empty_result_iff (loc prev : String) :
    transformLocationUrl loc prev = "" ↔
      IsUrl loc = false ∧ goUrlParse prev = none := by
  unfold transformLocationUrl
  cases hi : IsUrl loc with
  | true =>
    simp only [hi, if_true, Bool.true_eq_false, false_and, iff_false]
    intro h
    rw [h] at hi
    exact absurd hi (by decide)
  | false =>
    simp only [hi, Bool.false_eq_true, if_false, true_and]
    cases hp : goUrlParse prev with
    | none => simp
    | some u =>
      simp only [hp, reduceCtorEq, iff_false]
      intro h
      have hl := congrArg String.length h
      rw [String.length_append, String.length_append, String.length_append] at hl
      have h3 : ("://" : String).length = 3 := by decide
      have h0 : ("" : String).length = 0 := by decide
      omega

/-! ## Claim C4 -/

/-- Claim C4 formalized as stated: an absolute http(s) location is returned
unchanged, and otherwise the result is always the previous hop's scheme,
`://`, the previous hop's host and the location concatenated. -/
def resolverClaimC4 : Prop :=
  ∀ loc prev : String,
    (IsUrl loc = true → transformLocationUrl loc prev = loc) ∧
    (IsUrl loc = false → ∃ u, goUrlParse prev = some u ∧
      transformLocationUrl loc prev = u.scheme ++ "://" ++ u.host ++ loc)

/-- C4 as stated is false: when the previous URL fails Go's URL parsing
(here it contains a control byte) the resolver returns `""` and no
scheme/host concatenation exists. -/
theorem c4_counterexample : ¬ resolverClaimC4 := by
  intro h
  obtain ⟨u, hu, _⟩ := (h "/x" "bad\nurl").2 (by decide)
  rw [show goUrlParse "bad\nurl" = none from by decide] at hu
  exact Option.noConfusion hu

/-- C4 amended: an absolute http(s) location is returned unchanged;
otherwise, when the previous URL parses, the result is the previous hop's
scheme, `://`, its host and the location value concatenated verbatim (no
path normalization, and the original input URL plays no role); when the
previous URL fails to parse, the result is the empty string. -/
theorem c4_resolution (loc prev : String) :
    (IsUrl loc = true → transformLocationUrl loc prev = loc) ∧
    (IsUrl loc = false →
      (∀ u, goUrlParse prev = some u →
        transformLocationUrl loc prev = u.scheme ++ "://" ++ u.host ++ loc) ∧
      (goUrlParse prev = none → transformLocationUrl loc prev = "")) := by
  refine ⟨fun h => ?_, fun h => ⟨fun u hu => ?_, fun hu => ?_⟩⟩
  · simp [transformLocationUrl, h]
  · simp [transformLocationUrl, h, hu]
  · simp [transformLocationUrl, h, hu]

/-- Witness for C4's amended statement: an absolute location is kept, and a
relative location is resolved against the previous hop. -/
theorem c4_witness :
    transformLocationUrl "https://example.com/new" "https://old.com" =
      "https://example.com/new"
    ∧ transformLocationUrl "/new-path" "https://example.com/old" =
      "https://example.com/new-path" := by
  constructor
  · exact (c4_resolution "https://example.com/new" "https://old.com").1 (by decide)
  · have h := ((c4_resolution "/new-path" "https://example.com/old").2
      (by decide)).1 ⟨"https", "example.com"⟩ (by decide)
    exact h.trans (by decide)

/-! ## Claim C8 -/

/-- C8 as stated is false: the JSON encoding of
`dto.NewTrackFinishResponse()` is not the claimed
`&#123;"__typename":"Finish","finished":true&#125;` — the struct declares
no `finished` field. -/
theorem c8_counterexample :
    encodeTrackFinishResponse NewTrackFinishResponse ≠
      "\x7b\"__typename\":\"Finish\",\"finished\":true\x7d" := by decide

/-- C8 amended: the wire encoding of the finish event is exactly
`&#123;"__typename":"Finish"&#125;` — the discriminator field alone, with
no `finished` field. -/
theorem c8_finish_encoding :
    encodeTrackFinishResponse NewTrackFinishResponse =
      "\x7b\"__typename\":\"Finish\"\x7d" := by decide

/-! ## Claim C3 -/

/-- `getLast?` skips the head when the tail is non-empty. -/
theorem getLast?_cons_of_ne_nil {α : Type} (a : α) (l : List α) (h : l ≠ []) :
    (a :: l).getLast? = l.getLast? := by
  cases l with
  | nil => exact absurd rfl h
  | cons b t => rw [List.getLast?_cons_cons]

/-- Running the loop over a redirect chain from any accumulator appends one
checkpoint per fetch, in fetch order, and ends successfully at the last
hop. -/
theorem trackLoop_chain : ∀ (fs : List FetchResult) (url : String)
    (acc : List TrackCheckpoint), redirectChain url fs = true →
    ∃ (cps : List TrackCheckpoint) (last : String),
      trackLoop fs url acc = some (⟨last, acc ++ cps⟩, none) ∧
      cps.length = fs.length ∧
      cps.map TrackCheckpoint.url = chainUrls url fs ∧
      (chainUrls url fs).getLast? = some last := by
  intro fs
  induction fs with
  | nil => intro url acc h; simp [redirectChain] at h
  | cons f rest ih =>
    intro url acc h
    cases f with
    | err m => simp [redirectChain] at h
    | ok st loc lat =>
      cases rest with
      | nil =>
        simp only [redirectChain, Bool.not_eq_true', decide_eq_false_iff_not] at h
        refine ⟨[⟨url, st, lat⟩], url, ?_, by simp, by simp [chainUrls], by simp [chainUrls]⟩
        rw [trackLoop_ok_eq, if_neg h]
      | cons g rest' =>
        simp only [redirectChain, Bool.and_eq_true, decide_eq_true_eq] at h
        obtain ⟨⟨h1, h2⟩, h3⟩ := h
        obtain ⟨cps', last, heq, hlen, hmap, hlast⟩ :=
          ih (transformLocationUrl loc url) (acc ++ [⟨url, st, lat⟩]) h3
        refine ⟨⟨url, st, lat⟩ :: cps', last, ?_, by simp [hlen], ?_, ?_⟩
        · rw [trackLoop_ok_eq, if_pos h1, if_neg h2, heq]
          simp
        · simp [chainUrls, chainNext, hmap]
        · have hne : chainUrls (transformLocationUrl loc url) (g :: rest') ≠ [] := by
            simp [chainUrls]
          have hc : chainUrls url (FetchResult.ok st loc lat :: g :: rest') =
              url :: chainUrls (transformLocationUrl loc url) (g :: rest') := by
            simp [chainUrls, chainNext]
          rw [hc, getLast?_cons_of_ne_nil _ _ hne]
          exact hlast

/-- C3: over a chain of `N` redirect responses with resolvable locations
followed by a non-redirect response, `Track` succeeds with exactly `N + 1`
checkpoints whose URLs are the hops in fetch order, the first being the
input URL and the final URL being the last checkpoint's URL. -/
theorem c3_chain_checkpoints (url : String) (fs : List FetchResult)
    (h : redirectChain url fs = true) :
    ∃ (cps : List TrackCheckpoint) (last : String),
      Track fs url = some (⟨last, cps⟩, none) ∧
      cps.length = fs.length ∧
      cps.map TrackCheckpoint.url = chainUrls url fs ∧
      (chainUrls url fs).getLast? = some last ∧
      (chainUrls url fs).head? = some url := by
  obtain ⟨cps, last, heq, hlen, hmap, hlast⟩ := trackLoop_chain fs url [] h
  refine ⟨cps, last, by simpa using heq, hlen, hmap, hlast, ?_⟩
  cases fs with
  | nil => simp [redirectChain] at h
  | cons f rest => simp [chainUrls]

/-- Witness for C3 at spec scenario A: one absolute redirect then a 200. -/
theorem c3_witness :
    redirectChain "https://a/x"
      [FetchResult.ok 302 "https://a/y" 1, FetchResult.ok 200 "" 2] = true
    ∧ ∃ (cps : List TrackCheckpoint) (last : String),
      Track [FetchResult.ok 302 "https://a/y" 1, FetchResult.ok 200 "" 2]
          "https://a/x" = some (⟨last, cps⟩, none) ∧
      cps.length = 2 ∧
      cps.map TrackCheckpoint.url =
        chainUrls "https://a/x"
          [FetchResult.ok 302 "https://a/y" 1, FetchResult.ok 200 "" 2] ∧
      (chainUrls "https://a/x"
          [FetchResult.ok 302 "https://a/y" 1, FetchResult.ok 200 "" 2]).getLast? =
        some last ∧
      (chainUrls "https://a/x"
          [FetchResult.ok 302 "https://a/y" 1, FetchResult.ok 200 "" 2]).head? =
        some "https://a/x" :=
  ⟨by decide,
   c3_chain_checkpoints "https://a/x"
     [FetchResult.ok 302 "https://a/y" 1, FetchResult.ok 200 "" 2] (by decide)⟩

/-! ## Claim C9 -/

/-- Streaming a run that continues through `pre` and then hits a fetch
error sends one checkpoint message per successful fetch, in order, then the
error message, and nothing else. -/
theorem trackChannel_err_after_chain : ∀ (pre : List FetchResult)
    (url : String) (e : String) (rest : List FetchResult),
    continueChain url pre = true →
    ∃ cps : List TrackCheckpoint,
      cps.length = pre.length ∧
      cps.map TrackCheckpoint.url = chainUrls url pre ∧
      trackChannelLoop (pre ++ FetchResult.err e :: rest) url =
        some (cps.map checkpointEvent ++ [errorEvent (.networkError e)]) := by
  intro pre
  induction pre with
  | nil =>
    intro url e rest _
    exact ⟨[], by simp, by simp [chainUrls], by simp [trackChannelLoop]⟩
  | cons f pre' ih =>
    intro url e rest h
    cases f with
    | err m => simp [continueChain] at h
    | ok st loc lat =>
      simp only [continueChain, Bool.and_eq_true, decide_eq_true_eq] at h
      obtain ⟨⟨h1, h2⟩, h3⟩ := h
      obtain ⟨cps', hlen, hmap, heq⟩ := ih (transformLocationUrl loc url) e rest h3
      refine ⟨⟨url, st, lat⟩ :: cps', by simp [hlen], ?_, ?_⟩
      · simp [chainUrls, chainNext, hmap]
      · rw [List.cons_append, trackChannelLoop_ok_eq, if_pos h1, if_neg h2, heq]
        simp

/-- C9: when a fetch of the streaming trace fails after `pre` successful
redirect hops, the stream is exactly the checkpoint events of those hops in
order followed by the single error event — no checkpoint is emitted for the
failed fetch and the error arrives strictly after every checkpoint. -/
theorem c9_error_after_checkpoints (url : String) (pre : List FetchResult)
    (e : String) (rest : List FetchResult)
    (h : continueChain url pre = true) :
    ∃ cps : List TrackCheckpoint,
      cps.length = pre.length ∧
      cps.map TrackCheckpoint.url = chainUrls url pre ∧
      TrackChannel (pre ++ FetchResult.err e :: rest) url =
        some (cps.map checkpointEvent ++ [errorEvent (.networkError e)]) :=
  trackChannel_err_after_chain pre url e rest h

/-- Witness for C9: one successful redirect hop, then a failing fetch. -/
theorem c9_witness :
    continueChain "https://a/x" [FetchResult.ok 302 "https://a/y" 1] = true
    ∧ ∃ cps : List TrackCheckpoint,
      cps.length = 1 ∧
      cps.map TrackCheckpoint.url =
        chainUrls "https://a/x" [FetchResult.ok 302 "https://a/y" 1] ∧
      TrackChannel
          ([FetchResult.ok 302 "https://a/y" 1] ++ [FetchResult.err "boom"])
          "https://a/x" =
        some (cps.map checkpointEvent ++ [errorEvent (.networkError "boom")]) :=
  ⟨by decide,
   c9_error_after_checkpoints "https://a/x" [FetchResult.ok 302 "https://a/y" 1]
     "boom" [] (by decide)⟩

/-! ## Claim C2 -/

/-- The streaming loop terminates against an environment exactly when the
synchronous loop does, whatever the accumulator. -/
theorem trackLoops_isSome : ∀ (fs : List FetchResult) (url : String)
    (acc : List TrackCheckpoint),
    (trackChannelLoop fs url).isSome = (trackLoop fs url acc).isSome := by
  intro fs
  induction fs with
  | nil => intro url acc; rfl
  | cons f rest ih =>
    intro url acc
    cases f with
    | err m => rfl
    | ok st loc lat =>
      rw [trackLoop_ok_eq, trackChannelLoop_ok_eq]
      by_cases h1 : isRedirectStatus st
      · rw [if_pos h1, if_pos h1]
        by_cases h2 : transformLocationUrl loc url = ""
        · rw [if_pos h2, if_pos h2]
          rfl
        · rw [if_neg h2, if_neg h2]
          rw [← ih (transformLocationUrl loc url)
            (acc ++ [(⟨url, st, lat⟩ : TrackCheckpoint)])]
          cases hr : trackChannelLoop rest (transformLocationUrl loc url) <;>
            simp [hr]
      · rw [if_neg h1, if_neg h1]
        rfl

/-- A successful synchronous run makes the stream send exactly the new
checkpoints as checkpoint messages, in order, then the finish message. -/
theorem trackLoop_success_channel : ∀ (fs : List FetchResult) (url : String)
    (acc : List TrackCheckpoint) (resp : TrackResponse),
    trackLoop fs url acc = some (resp, none) →
    ∃ cps : List TrackCheckpoint,
      resp.checkpoints = acc ++ cps ∧
      trackChannelLoop fs url = some (cps.map checkpointEvent ++ [finishedEvent]) := by
  intro fs
  induction fs with
  | nil => intro url acc resp h; simp [trackLoop] at h
  | cons f rest ih =>
    intro url acc resp h
    cases f with
    | err m => simp [trackLoop] at h
    | ok st loc lat =>
      rw [trackLoop_ok_eq] at h
      by_cases h1 : isRedirectStatus st
      · rw [if_pos h1] at h
        by_cases h2 : transformLocationUrl loc url = ""
        · rw [if_pos h2] at h
          simp only [Option.some.injEq, Prod.mk.injEq] at h
          refine ⟨[⟨url, st, lat⟩], ?_, ?_⟩
          · rw [← h.1]
          · rw [trackChannelLoop_ok_eq, if_pos h1, if_pos h2]
            simp
        · rw [if_neg h2] at h
          obtain ⟨cps', hcps, hch⟩ := ih (transformLocationUrl loc url)
            (acc ++ [⟨url, st, lat⟩]) resp h
          refine ⟨⟨url, st, lat⟩ :: cps', by simp [hcps], ?_⟩
          rw [trackChannelLoop_ok_eq, if_pos h1, if_neg h2, hch]
          simp
      · rw [if_neg h1] at h
        simp only [Option.some.injEq, Prod.mk.injEq] at h
        refine ⟨[⟨url, st, lat⟩], by rw [← h.1], ?_⟩
        rw [trackChannelLoop_ok_eq, if_neg h1]
        simp

/-- A failing synchronous run makes the stream send some checkpoint
messages followed by the single error message carrying the same error. -/
theorem trackLoop_error_channel : ∀ (fs : List FetchResult) (url : String)
    (acc : List TrackCheckpoint) (resp : TrackResponse) (e : TrackError),
    trackLoop fs url acc = some (resp, some e) →
    ∃ cps : List TrackCheckpoint,
      trackChannelLoop fs url = some (cps.map checkpointEvent ++ [errorEvent e]) := by
  intro fs
  induction fs with
  | nil => intro url acc resp e h; simp [trackLoop] at h
  | cons f rest ih =>
    intro url acc resp e h
    cases f with
    | err m =>
      simp only [trackLoop, Option.some.injEq, Prod.mk.injEq,
        Option.some.injEq] at h
      refine ⟨[], ?_⟩
      rw [← h.2]
      rfl
    | ok st loc lat =>
      rw [trackLoop_ok_eq] at h
      by_cases h1 : isRedirectStatus st
      · rw [if_pos h1] at h
        by_cases h2 : transformLocationUrl loc url = ""
        · rw [if_pos h2] at h; simp at h
        · rw [if_neg h2] at h
          obtain ⟨cps', hch⟩ := ih (transformLocationUrl loc url)
            (acc ++ [⟨url, st, lat⟩]) resp e h
          refine ⟨⟨url, st, lat⟩ :: cps', ?_⟩
          rw [trackChannelLoop_ok_eq, if_pos h1, if_neg h2, hch]
          simp
      · rw [if_neg h1] at h; simp at h

/-- C2 as stated is false: after a successful redirect hop the stream has
already emitted its checkpoint event, but when the next fetch fails `Track`
returns the zero response with an empty checkpoint list, so the emitted
checkpoint events are not identical to `Track`'s returned checkpoint
list. -/
theorem c2_counterexample :
    TrackChannel [FetchResult.ok 302 "https://a/y" 7, FetchResult.err "boom"]
        "https://a/x" =
      some [checkpointEvent ⟨"https://a/x", 302, 7⟩,
        errorEvent (.networkError "boom")]
    ∧ Track [FetchResult.ok 302 "https://a/y" 7, FetchResult.err "boom"]
        "https://a/x" =
      some (⟨"", []⟩, some (.networkError "boom"))
    ∧ [checkpointEvent ⟨"https://a/x", 302, 7⟩,
        errorEvent (.networkError "boom")].filterMap
          TrackChannelResponse.checkpoint ≠
      (⟨"", []⟩ : TrackResponse).checkpoints := by decide

/-- C2 amended: the stream terminates exactly when `Track` does; on a
successful trace its events are exactly `Track`'s checkpoints as checkpoint
events in identical order followed by the single finish event; on a failing
trace its events are the checkpoints emitted before the failure followed by
the single error event carrying `Track`'s error, while `Track` itself
returns the zero response — in all cases exactly one terminal event, as the
last element. -/
theorem c2_stream_refines_track :
    (∀ (fs : List FetchResult) (url : String),
      (TrackChannel fs url).isSome = (Track fs url).isSome)
    ∧ (∀ (fs : List FetchResult) (url : String)
        (evs : List TrackChannelResponse) (resp : TrackResponse),
      TrackChannel fs url = some evs →
      (Track fs url = some (resp, none) →
        evs = resp.checkpoints.map checkpointEvent ++ [finishedEvent])
      ∧ (∀ e, Track fs url = some (resp, some e) →
        ∃ cps : List TrackCheckpoint,
          evs = cps.map checkpointEvent ++ [errorEvent e])) := by
  constructor
  · intro fs url; exact trackLoops_isSome fs url []
  · intro fs url evs resp hch
    unfold TrackChannel at hch
    constructor
    · intro htr
      obtain ⟨cps, hcps, hch'⟩ := trackLoop_success_channel fs url [] resp htr
      rw [hch] at hch'
      simp only [List.nil_append] at hcps
      rw [hcps]
      exact Option.some.inj hch'
    · intro e htr
      obtain ⟨cps, hch'⟩ := trackLoop_error_channel fs url [] resp e htr
      rw [hch] at hch'
      exact ⟨cps, Option.some.inj hch'⟩

/-- Witness for C2's amended statement: a successful one-hop trace and an
immediately failing trace. -/
theorem c2_witness :
    ([checkpointEvent ⟨"https://a/x", 200, 3⟩, finishedEvent] :
        List TrackChannelResponse) =
      (⟨"https://a/x", [⟨"https://a/x", 200, 3⟩]⟩ :
        TrackResponse).checkpoints.map checkpointEvent ++ [finishedEvent]
    ∧ ∃ cps : List TrackCheckpoint,
      ([errorEvent (.networkError "boom")] : List TrackChannelResponse) =
        cps.map checkpointEvent ++ [errorEvent (.networkError "boom")] :=
  ⟨(c2_stream_refines_track.2 [FetchResult.ok 200 "" 3] "https://a/x"
      [checkpointEvent ⟨"https://a/x", 200, 3⟩, finishedEvent]
      ⟨"https://a/x", [⟨"https://a/x", 200, 3⟩]⟩ (by decide)).1 (by decide),
   (c2_stream_refines_track.2 [FetchResult.err "boom"] "https://a/x"
      [errorEvent (.networkError "boom")] ⟨"", []⟩ (by decide)).2
     (.networkError "boom") (by decide)⟩

/-! ## Claim C1 (spec-modelled) -/

/-- Appending a fresh element preserves `Nodup`. -/
theorem nodup_append_singleton {l : List String} {a : String}
    (h : l.Nodup) (ha : a ∉ l) : (l ++ [a]).Nodup := by
  rw [List.nodup_append]
  refine ⟨h, List.nodup_singleton a, ?_⟩
  intro x hx hmem
  simp only [List.mem_singleton] at hmem
  subst hmem
  exact ha hx

/-- Appending an already-present element breaks `Nodup`. -/
theorem not_nodup_append_singleton {l : List String} {a : String}
    (ha : a ∈ l) : ¬ (l ++ [a]).Nodup := by
  intro hn
  rw [List.nodup_append] at hn
  exact hn.2.2 ha (by simp)

/-- Once the spec tracker's run reaches a duplicate URL it aborts with
`CircularRedirection` without consuming any further fetcher result. -/
theorem trackSpecLoop_dup : ∀ (fs : List FetchResult) (url : String)
    (visited : List String) (acc : List TrackCheckpoint)
    (rest : List FetchResult),
    specDupChain url visited fs = true →
    trackSpecLoop (fs ++ rest) url visited acc =
      some (⟨"", []⟩, some .circularRedirection) := by
  intro fs
  induction fs with
  | nil => intro url visited acc rest h; simp [specDupChain] at h
  | cons f fs' ih =>
    intro url visited acc rest h
    cases f with
    | err m => simp [specDupChain] at h
    | ok st loc lat =>
      cases fs' with
      | nil =>
        simp only [specDupChain, decide_eq_true_eq] at h
        rw [List.cons_append, trackSpecLoop_ok_eq, if_pos h]
      | cons g fs'' =>
        simp only [specDupChain, Bool.and_eq_true, Bool.not_eq_true',
          decide_eq_false_iff_not, decide_eq_true_eq] at h
        obtain ⟨⟨⟨hm, h1⟩, h2⟩, h3⟩ := h
        rw [List.cons_append, trackSpecLoop_ok_eq, if_neg hm, if_pos h1, if_neg h2]
        exact ih _ _ _ rest h3

/-- A terminated run of the spec tracker ends in `CircularRedirection`
exactly when its fetched URLs, together with the URLs already visited,
contain a duplicate. -/
theorem trackSpecLoop_circular_iff : ∀ (fs : List FetchResult) (url : String)
    (visited : List String) (acc : List TrackCheckpoint) (r : TrackResponse)
    (e : Option TrackError), visited.Nodup →
    trackSpecLoop fs url visited acc = some (r, e) →
    (e = some .circularRedirection ↔
      ¬ (visited ++ specFetched fs url visited).Nodup) := by
  intro fs
  induction fs with
  | nil => intro url visited acc r e _ h; simp [trackSpecLoop] at h
  | cons f fs' ih =>
    intro url visited acc r e hnd h
    cases f with
    | err m =>
      simp only [trackSpecLoop, Option.some.injEq, Prod.mk.injEq] at h
      rw [← h.2]
      simp [specFetched, hnd]
    | ok st loc lat =>
      rw [trackSpecLoop_ok_eq] at h
      by_cases hm : url ∈ visited
      · rw [if_pos hm] at h
        simp only [Option.some.injEq, Prod.mk.injEq] at h
        rw [← h.2]
        simp only [specFetched, if_pos hm, true_iff]
        exact not_nodup_append_singleton hm
      · rw [if_neg hm] at h
        by_cases h1 : isRedirectStatus st
        · rw [if_pos h1] at h
          by_cases h2 : transformLocationUrl loc url = ""
          · rw [if_pos h2] at h
            simp only [Option.some.injEq, Prod.mk.injEq] at h
            rw [← h.2]
            simp only [specFetched, if_neg hm, if_pos h1, h2, if_pos rfl]
            simp [nodup_append_singleton hnd hm]
          · rw [if_neg h2] at h
            have hnd' : (visited ++ [url]).Nodup := nodup_append_singleton hnd hm
            have hiff := ih (transformLocationUrl loc url) (visited ++ [url])
              (acc ++ [⟨url, st, lat⟩]) r e hnd' h
            rw [hiff]
            have hsf : specFetched (FetchResult.ok st loc lat :: fs') url visited =
                url :: specFetched fs' (transformLocationUrl loc url)
                  (visited ++ [url]) := by
              simp [specFetched, hm, h1, h2]
            have hl : visited ++ [url] ++
                specFetched fs' (transformLocationUrl loc url) (visited ++ [url]) =
                visited ++ specFetched (FetchResult.ok st loc lat :: fs') url visited := by
              rw [hsf, List.append_assoc, List.singleton_append]
            rw [← hl]
        · rw [if_neg h1] at h
          simp only [Option.some.injEq, Prod.mk.injEq] at h
          rw [← h.2]
          simp only [specFetched, if_neg hm, if_neg h1]
          simp [nodup_append_singleton hnd hm]

/-- C1 (spec-modelled): whenever a run of the spec tracker fetches a URL a
second time it aborts with `CircularRedirection` and consumes no further
fetcher result (the outcome is the same for every continuation `rest`), and
for every terminated run `CircularRedirection` occurs exactly when the
fetched URLs contain a duplicate — the sole criterion for that error. -/
theorem c1_circular_redirection :
    (∀ (url : String) (fs rest : List FetchResult),
      specDupChain url [] fs = true →
      TrackSpec (fs ++ rest) url = some (⟨"", []⟩, some .circularRedirection))
    ∧ (∀ (fs : List FetchResult) (url : String) (r : TrackResponse)
        (e : Option TrackError),
      TrackSpec fs url = some (r, e) →
      (e = some .circularRedirection ↔ ¬ (specFetched fs url []).Nodup)) := by
  constructor
  · intro url fs rest h
    exact trackSpecLoop_dup fs url [] [] rest h
  · intro fs url r e h
    have hiff := trackSpecLoop_circular_iff fs url [] [] r e List.nodup_nil h
    simpa using hiff

/-- Witness for C1 at spec scenario C: `a/x → a/y → a/x`, the revisit of
`a/x` detected on the third fetch. -/
theorem c1_witness :
    TrackSpec
        ([FetchResult.ok 302 "https://a/y" 1, FetchResult.ok 302 "https://a/x" 1,
          FetchResult.ok 302 "https://a/y" 1] ++ []) "https://a/x" =
      some (⟨"", []⟩, some .circularRedirection)
    ∧ ((some TrackError.circularRedirection = some TrackError.circularRedirection) ↔
      ¬ (specFetched
          [FetchResult.ok 302 "https://a/y" 1, FetchResult.ok 302 "https://a/x" 1,
            FetchResult.ok 302 "https://a/y" 1] "https://a/x" []).Nodup) :=
  ⟨c1_circular_redirection.1 "https://a/x"
     [FetchResult.ok 302 "https://a/y" 1, FetchResult.ok 302 "https://a/x" 1,
       FetchResult.ok 302 "https://a/y" 1] [] (by decide),
   c1_circular_redirection.2
     [FetchResult.ok 302 "https://a/y" 1, FetchResult.ok 302 "https://a/x" 1,
       FetchResult.ok 302 "https://a/y" 1] "https://a/x" ⟨"", []⟩
     (some .circularRedirection) (by decide)⟩

end Wheregoes
